import Mathlib

/-!
A shallow embedding of the command-orchestration core of the VoiceOS
assistant: the per-frame gesture classifiers, the fast-path dispatcher,
the trigger state machine with its cooldown debounce, the conversation
history store, the single-flight task scheduler, and the speech
notification sink.  Definitions are translated from the Python sources
(gesture_control.py, overlay.py, voice.py, tools/local_actions.py).
Machine floats (landmark coordinates, wall-clock times) are modelled as
rationals, and OS / subprocess boundaries as explicit oracles.
-/

namespace VoiceOS

/-! ## Gesture classifiers (gesture_control.py, lines 55-97) -/

/-- Landmark set for one detected hand: the y-coordinate of each indexed
landmark (MediaPipe indices; the classifiers read fingertips 8/12/16/20
and proximal PIP joints 6/10/14/18).  Coordinates are rationals. -/
structure HandLandmarks where
  y : Nat → ℚ

/-- Start-gesture classifier (is_open_palm): counts fingers whose tip lies
above (smaller y than) its PIP joint; fires when all four are extended. -/
def is_open_palm (h : HandLandmarks) : Bool :=
  let extended_fingers : Nat :=
    (if h.y 8 < h.y 6 then 1 else 0) + (if h.y 12 < h.y 10 then 1 else 0) +
      (if h.y 16 < h.y 14 then 1 else 0) + (if h.y 20 < h.y 18 then 1 else 0)
  decide (4 ≤ extended_fingers)

/-- Stop-gesture classifier (is_closed_fist): counts fingers whose tip lies
below (larger y than) its PIP joint; fires when all four are curled. -/
def is_closed_fist (h : HandLandmarks) : Bool :=
  let curled_fingers : Nat :=
    (if h.y 6 < h.y 8 then 1 else 0) + (if h.y 10 < h.y 12 then 1 else 0) +
      (if h.y 14 < h.y 16 then 1 else 0) + (if h.y 18 < h.y 20 then 1 else 0)
  decide (4 ≤ curled_fingers)

/-- Reset-gesture classifier (is_victory_hand): index and middle extended
(tip above PIP), ring and pinky curled (tip below PIP). -/
def is_victory_hand (h : HandLandmarks) : Bool :=
  let index_extended := decide (h.y 8 < h.y 6)
  let middle_extended := decide (h.y 12 < h.y 10)
  let ring_curled := decide (h.y 14 < h.y 16)
  let pinky_curled := decide (h.y 18 < h.y 20)
  index_extended && middle_extended && ring_curled && pinky_curled

/-! ## Python string primitives used by the dispatcher and cleanup code.
All are ASCII-faithful models of the CPython operations (the sources only
ever feed them transcribed English command text). -/

/-- Python whitespace class for str.strip, str.split and the regex \s. -/
def pyIsSpace (c : Char) : Bool :=
  c = ' ' || c = '\t' || c = '\n' || c = '\r' || c = Char.ofNat 11 || c = Char.ofNat 12

/-- Python str.strip() with no argument: remove leading and trailing
whitespace. -/
def pyStrip (s : List Char) : List Char :=
  ((s.dropWhile pyIsSpace).reverse.dropWhile pyIsSpace).reverse

/-- Python str.lower(), ASCII range. -/
def pyLower (s : List Char) : List Char :=
  s.map Char.toLower

/-- Python str.lstrip(chars): remove leading characters drawn from the
given set. -/
def lstripChars (cs : List Char) (s : List Char) : List Char :=
  s.dropWhile (fun c => cs.contains c)

/-- Python str.startswith on character lists (first argument is the
pattern). -/
def listStartsWith : List Char → List Char → Bool
  | [], _ => true
  | _ :: _, [] => false
  | p :: ps, c :: cs => p == c && listStartsWith ps cs

/-- Python substring containment (the `in` operator on str). -/
def containsSub (pat : List Char) : List Char → Bool
  | [] => listStartsWith pat []
  | c :: cs => listStartsWith pat (c :: cs) || containsSub pat cs

/-- Python str.split() with no argument: split on whitespace runs and
drop empty tokens. -/
def pySplitTokens (s : List Char) : List (List Char) :=
  (s.splitOnP pyIsSpace).filter (fun t => t ≠ [])

/-- Python regex word class \w, ASCII range: letters, digits and the
underscore. -/
def pyIsWordChar (c : Char) : Bool :=
  c.isAlphanum || c = '_'

/-! ## Fast-path dispatcher (tools/local_actions.py)

The two patterns are the anchored Python regexes
`^(?:open|launch|start)\s+(?:the\s+)?(.+)$` and
`^(?:close|quit|exit|terminate|kill)\s+(?:the\s+)?(.+)$`, applied by
re.search (so the ^ anchor pins the match to position 0).  The capture
logic below reproduces CPython backtracking for the suffix
`\s+(?:the\s+)?(.+)$`: the dot never matches a newline, $ matches at the
end of the text or just before one final newline, and the greedy
quantifiers give characters back from the right when (.+) would
otherwise be empty. -/

/-- The capture may not contain a newline, since regex `.` excludes it. -/
def noNewline (s : List Char) : Bool :=
  !s.contains '\n'

/-- Splits off an optional leading `the\s+` group: if the remainder starts
with the literal characters t, h, e followed by at least one whitespace
character, return that whitespace run and the rest. -/
def theGroupSplit (r : List Char) : Option (List Char × List Char) :=
  match r with
  | 't' :: 'h' :: 'e' :: rest =>
    let ws := rest.takeWhile pyIsSpace
    if ws = [] then none else some (ws, rest.dropWhile pyIsSpace)
  | _ => none

/-- Capture of `\s+(?:the\s+)?(.+)` against the whole of core (the $
anchor already resolved to the true end), following CPython backtracking
order: the outer \s+ is maximal first, the optional group is tried
before being skipped, and quantifiers give back from the right. -/
def captureCore (core : List Char) : Option (List Char) :=
  let ws := core.takeWhile pyIsSpace
  let r := core.dropWhile pyIsSpace
  if ws = [] then none
  else if r = [] then
    match ws.getLast? with
    | some c => if 2 ≤ ws.length ∧ c ≠ '\n' then some [c] else none
    | none => none
  else
    match theGroupSplit r with
    | some (iws, r2) =>
      if r2 ≠ [] then (if noNewline r2 then some r2 else none)
      else
        match iws.getLast? with
        | some c =>
          if 2 ≤ iws.length then (if c ≠ '\n' then some [c] else none)
          else (if noNewline r then some r else none)
        | none => none
    | none => if noNewline r then some r else none

/-- Capture of `\s+(?:the\s+)?(.+)$` on the text after a verb: $ matches
either at the end of the text or just before one final newline. -/
def regexRestCapture (s : List Char) : Option (List Char) :=
  let core :=
    match s.getLast? with
    | some c => if c = '\n' then s.dropLast else s
    | none => s
  captureCore core

/-- Matches the anchored alternation of verbs, each followed by
`\s+(?:the\s+)?(.+)$`, returning the capture.  Alternatives are tried in
order, and the engine moves to the next verb when the rest of the
pattern cannot be completed. -/
def matchVerbs : List String → List Char → Option (List Char)
  | [], _ => none
  | v :: vs, s =>
    if listStartsWith v.data s then
      match regexRestCapture (s.drop v.data.length) with
      | some cap => some cap
      | none => matchVerbs vs s
    else matchVerbs vs s

/-- Outcome of one subprocess.run call at the OS boundary: exit status
zero, non-zero exit status, or a raised exception. -/
inductive OSOutcome
  | success
  | failure
  | raised
deriving DecidableEq, Repr

/-- An ASCII apostrophe, spliced into the note strings. -/
def apos : String := String.singleton (Char.ofNat 39)

/-- The note returned after a successful fast-path open. -/
def openNote (app : String) : String :=
  "System Note: I have already opened the application " ++ apos ++ app ++ apos ++
    " for you via a fast-path command. You do not need to open it again. Proceed with any subsequent steps."

/-- The note returned after a successful fast-path close. -/
def closeNote (app : String) : String :=
  "System Note: I have already closed the application " ++ apos ++ app ++ apos ++
    " for you via a fast-path command. You do not need to close it again."

/-- Verbs of the open-intent pattern, in alternation order. -/
def openVerbs : List String := ["open", "launch", "start"]

/-- Verbs of the close-intent pattern, in alternation order. -/
def closeVerbs : List String := ["close", "quit", "exit", "terminate", "kill"]

/-- Cleanup of a captured app name: group(1).strip() followed by
re.sub removing every character that is neither \w nor \s. -/
def cleanAppName (r : List Char) : List Char :=
  (pyStrip r).filter (fun c => pyIsWordChar c || pyIsSpace c)

/-- The heuristic guard of handle_local_action: reject when the cleaned
name has more than 3 whitespace-separated tokens or contains the
conjunction markers and / then. -/
def guardReject (appClean : List Char) : Bool :=
  decide (3 < (pySplitTokens appClean).length) ||
    containsSub " and ".data appClean || containsSub " then ".data appClean

/-- The fast-path dispatcher handle_local_action.  The two oracles give
the exit outcome of the subprocess launch (open -a NAME) and graceful
quit (osascript quit app NAME) for a given cleaned app name; a non-zero
exit status or a raised exception both produce None, absorbed by the
try/except blocks.  Note the open branch, once its pattern matches,
returns without ever consulting the close pattern. -/
def handle_local_action (osOpen osQuit : String → OSOutcome) (text : String) : Option String :=
  let text_lower := pyStrip (pyLower text.data)
  match matchVerbs openVerbs text_lower with
  | some rest =>
    let app_name_clean := cleanAppName rest
    if guardReject app_name_clean then none
    else
      match osOpen (String.mk app_name_clean) with
      | OSOutcome.success => some (openNote (String.mk app_name_clean))
      | OSOutcome.failure => none
      | OSOutcome.raised => none
  | none =>
    match matchVerbs closeVerbs text_lower with
    | some rest =>
      let app_name_clean := cleanAppName rest
      if guardReject app_name_clean then none
      else
        match osQuit (String.mk app_name_clean) with
        | OSOutcome.success => some (closeNote (String.mk app_name_clean))
        | OSOutcome.failure => none
        | OSOutcome.raised => none
    | none => none

/-- An oracle under which every OS call exits with status zero. -/
def osAllSuccess : String → OSOutcome := fun _ => OSOutcome.success

/-- An oracle under which every OS call raises an exception. -/
def osAllRaised : String → OSOutcome := fun _ => OSOutcome.raised

/-- An oracle under which every OS call exits with non-zero status. -/
def osAllFailure : String → OSOutcome := fun _ => OSOutcome.failure

/-! ## Conversation history store (overlay.py / gesture_control.py) -/

/-- Role tag of one Turn. -/
inductive Role
  | user
  | assistant
  | tool
deriving DecidableEq, Repr

/-- One content block of a Turn. -/
inductive ContentBlock
  | text (s : String)
  | toolUse (id : String)
  | toolResult (id : String)
  | image
deriving DecidableEq, Repr

/-- One Turn of the conversation history. -/
structure Turn where
  role : Role
  content : List ContentBlock
deriving DecidableEq, Repr

/-- Builds the new user Turn from content blocks. -/
def userTurn (content : List ContentBlock) : Turn :=
  ⟨Role.user, content⟩

/-- History append from overlay.py process_input (lines 256-264): if the
last message is an assistant Turn it is popped first, then the user Turn
is appended. -/
def overlayAppendUser (msgs : List Turn) (content : List ContentBlock) : List Turn :=
  let pruned :=
    match msgs.getLast? with
    | some t => if t.role = Role.assistant then msgs.dropLast else msgs
    | none => msgs
  pruned ++ [userTurn content]

/-- History append from gesture_control.py run_agent (line 136): the user
Turn is appended directly, with no prune of a trailing assistant Turn. -/
def gestureAppendUser (msgs : List Turn) (content : List ContentBlock) : List Turn :=
  msgs ++ [userTurn content]

/-! ## Notification sink (voice.py, lines 36-110)

The module-level state is the one current speech process.  Events record
the externally visible actions in program order: the unconditional
killall of the audio player, the terminate() of the tracked process, and
the spawn of a new speech pipeline. -/

/-- Module state of voice.py: the tracked current speech process. -/
structure VoiceState where
  current_process : Option Nat
deriving DecidableEq, Repr

/-- Externally visible actions of the notification sink. -/
inductive VoiceEvent
  | killallAfplay
  | terminated (pid : Nat)
  | spawned (pid : Nat)
deriving DecidableEq, Repr

/-- voice.stop_speaking: always killall the audio player, then terminate
and clear the tracked process if there is one. -/
def stop_speaking (s : VoiceState) : VoiceState × List VoiceEvent :=
  match s.current_process with
  | some p => (⟨none⟩, [VoiceEvent.killallAfplay, VoiceEvent.terminated p])
  | none => (⟨none⟩, [VoiceEvent.killallAfplay])

/-- voice.speak: first stop whatever is speaking, return when the text is
empty, otherwise spawn the generate-and-play pipeline and track it.  The
spawnOk flag models subprocess.Popen raising (caught by the
try/except, leaving no tracked process). -/
def speak (text : String) (newPid : Nat) (spawnOk : Bool) (s : VoiceState) :
    VoiceState × List VoiceEvent :=
  let stopped := stop_speaking s
  if text = "" then stopped
  else if spawnOk then (⟨some newPid⟩, stopped.2 ++ [VoiceEvent.spawned newPid])
  else stopped

/-! ## Trigger state machine (gesture_control.py start, lines 225-252) -/

/-- One camera frame as the state machine sees it: the wall-clock time
and the detected hand landmarks, if any. -/
structure FrameInput where
  time : ℚ
  hand : Option HandLandmarks

/-- The accepted transition of one frame, if any. -/
inductive GestureAction
  | startedListening
  | stoppedListening
  | didResetHistory
deriving DecidableEq, Repr

/-- The per-frame mutable state of the trigger loop. -/
structure TriggerState where
  is_listening : Bool
  last_activation_time : ℚ
  cooldown : ℚ
deriving DecidableEq, Repr

/-- One iteration of the frame loop: classify the hand for the current
mode, and accept a transition only when the cooldown window (measured
from the last accepted transition) has elapsed.  Accepting updates
last_activation_time; everything else leaves the state untouched. -/
def gestureStep (st : TriggerState) (f : FrameInput) : TriggerState × Option GestureAction :=
  match f.hand with
  | none => (st, none)
  | some h =>
    if st.is_listening = false then
      if is_open_palm h then
        if st.cooldown < f.time - st.last_activation_time then
          ({ st with is_listening := true, last_activation_time := f.time },
            some GestureAction.startedListening)
        else (st, none)
      else if is_victory_hand h then
        if st.cooldown < f.time - st.last_activation_time then
          ({ st with last_activation_time := f.time }, some GestureAction.didResetHistory)
        else (st, none)
      else (st, none)
    else
      if is_closed_fist h then
        if st.cooldown < f.time - st.last_activation_time then
          ({ st with is_listening := false, last_activation_time := f.time },
            some GestureAction.stoppedListening)
        else (st, none)
      else (st, none)

/-! ## Single-flight scheduler and history ownership
(gesture_control.py, lines 99-105 and 167-204)

Python list objects are modelled as a heap of message lists indexed by a
reference; self.messages is a reference into that heap, and
`self.messages = []` in reset_history allocates a fresh empty object,
leaving the old object (still held by a running task) in place.  A task
record keeps the reference it mutates, whether it is done, and whether
cancellation has been requested on it (Task.cancel is fire-and-forget:
the request is queued onto the event loop, so the record is marked
rather than made terminal). -/

/-- One submitted remote-exchange task. -/
structure TaskRec where
  id : Nat
  ref : Nat
  done : Bool
  cancelRequested : Bool
deriving DecidableEq, Repr

/-- State of one GestureController instance. -/
structure GCState where
  messagesRef : Nat
  heap : Nat → List Turn
  nextRef : Nat
  tasks : List TaskRec
  current_task : Option Nat
  nextId : Nat

/-- Externally visible actions of process_command / reset_history. -/
inductive GCEvent
  | spoke (msg : String)
  | fastPathRun (cmd : String)
  | cancelIssued (taskId : Nat)
  | submitted (taskId : Nat) (cmd : String)
deriving DecidableEq, Repr

/-- Marks cancellation as requested on the task with the given id. -/
def markCancel (tasks : List TaskRec) (cid : Nat) : List TaskRec :=
  tasks.map (fun t => if t.id = cid then { t with cancelRequested := true } else t)

/-- The shared idiom at lines 103-104 and 197-199: if self.current_task
exists and is not done, queue current_task.cancel onto the loop. -/
def cancelCurrentIfRunning (s : GCState) : GCState × List GCEvent :=
  match s.current_task with
  | none => (s, [])
  | some cid =>
    match s.tasks.find? (fun t => t.id == cid) with
    | none => (s, [])
    | some t =>
      if t.done then (s, [])
      else ({ s with tasks := markCancel s.tasks cid }, [GCEvent.cancelIssued cid])

/-- Transcript cleanup at the top of process_command (lines 171-178): a
case-insensitive leading "listening" is cut off (9 characters of the
original text, then strip), then leading punctuation characters are
removed. -/
def cleanupText (text : String) : String :=
  let text_clean :=
    if listStartsWith "listening".data (pyLower text.data) then pyStrip (text.data.drop 9)
    else text.data
  String.mk (lstripChars ".,!?- ".data text_clean)

/-- gesture_control.py process_command (lines 167-204): empty or
cleaned-empty transcripts are a no-op; otherwise the fast path runs and
either short-circuits, or the current non-done task is cancelled and a
new task is submitted and becomes current.  The submitted task records
the message-list object it will mutate (run_agent passes self.messages
to the exchange when it starts executing). -/
def process_command (osOpen osQuit : String → OSOutcome) (text : String) (s : GCState) :
    GCState × List GCEvent :=
  if text = "" then (s, [])
  else
    let text_clean := cleanupText text
    if text_clean = "" then (s, [])
    else
      let evs := [GCEvent.spoke "Processing", GCEvent.fastPathRun text_clean]
      match handle_local_action osOpen osQuit text_clean with
      | some _note => (s, evs ++ [GCEvent.spoke "Done"])
      | none =>
        let step := cancelCurrentIfRunning s
        let s1 := step.1
        let newTask : TaskRec := ⟨s1.nextId, s1.messagesRef, false, false⟩
        ({ s1 with
            tasks := s1.tasks ++ [newTask]
            current_task := some newTask.id
            nextId := s1.nextId + 1 },
          evs ++ step.2 ++ [GCEvent.submitted newTask.id text_clean])

/-- gesture_control.py reset_history (lines 99-105): speak, cancel the
current non-done task, then rebind self.messages to a freshly allocated
empty list object; the old object is untouched. -/
def reset_history (s : GCState) : GCState × List GCEvent :=
  let step := cancelCurrentIfRunning s
  let s1 := step.1
  let fresh := s1.nextRef
  ({ s1 with
      messagesRef := fresh
      heap := fun r => if r = fresh then [] else s1.heap r
      nextRef := fresh + 1 },
    [GCEvent.spoke "History reset"] ++ step.2)

/-- Modelled from the spec: agent_loop (file loop.py, imported by
gesture_control.py but not present in the sources) runs the remote
exchange against the message list object run_agent handed it and, per
section 4.4 of the spec, may append assistant and tool Turns produced
along the way to that same object.  One such append by the task t. -/
def taskAppendTurn (t : TaskRec) (turn : Turn) (s : GCState) : GCState :=
  { s with heap := fun r => if r = t.ref then s.heap t.ref ++ [turn] else s.heap r }

/-- Scheduler invariant: every task that is neither done nor
cancel-requested is the current one, task ids are below the allocator,
and task ids are pairwise distinct. -/
def SchedInv (s : GCState) : Prop :=
  (∀ t ∈ s.tasks, t.done = false → t.cancelRequested = false → s.current_task = some t.id) ∧
    (∀ t ∈ s.tasks, t.id < s.nextId) ∧
    s.tasks.Pairwise (fun a b => a.id ≠ b.id)

/-! ## Concrete witnesses -/

/-- A hand with every fingertip above its PIP joint (tips 8/12/16/20 are
the indices divisible by 4). -/
def palmHand : HandLandmarks := ⟨fun i => if i % 4 = 0 then 0 else 1⟩

/-- A hand with every fingertip below its PIP joint. -/
def fistHand : HandLandmarks := ⟨fun i => if i % 4 = 0 then 1 else 0⟩

/-- A degenerate hand with every landmark at the same height. -/
def flatHand : HandLandmarks := ⟨fun _ => 0⟩

/-- A victory hand: index and middle tips up, ring and pinky tips down. -/
def victoryHand : HandLandmarks :=
  ⟨fun i => if i = 8 || i = 12 then 0 else if i = 16 || i = 20 then 2 else 1⟩

/-- A history object holding one dangling assistant Turn. -/
def danglingAssistant : Turn := ⟨Role.assistant, [ContentBlock.toolUse "tu1"]⟩

/-- A controller state with one running task holding the live history. -/
def exampleGC : GCState :=
  { messagesRef := 0
    heap := fun r => if r = 0 then [danglingAssistant] else []
    nextRef := 1
    tasks := [⟨5, 0, false, false⟩]
    current_task := some 5
    nextId := 6 }

/-- The running task of exampleGC. -/
def exampleTask : TaskRec := ⟨5, 0, false, false⟩

/-- A Turn a cancelled task might still produce after a reset. -/
def lateTurn : Turn := ⟨Role.assistant, [ContentBlock.text "late result"]⟩

/-- A trigger state fresh out of the cooldown window. -/
def debounceState : TriggerState := ⟨false, 0, 2⟩

/-- A frame carrying an open palm at time 3. -/
def frame1 : FrameInput := ⟨3, some palmHand⟩

/-- A frame carrying a closed fist one second later, inside the cooldown
window of the transition accepted at time 3. -/
def frame2 : FrameInput := ⟨4, some fistHand⟩

/-! ## Theorems -/

/-- When a four-indicator count reaches 4, every indicator condition
holds. -/
theorem four_le_sum_ite {c1 c2 c3 c4 : Prop} [Decidable c1] [Decidable c2] [Decidable c3]
    [Decidable c4]
    (h : 4 ≤ (if c1 then 1 else 0) + (if c2 then 1 else 0) + (if c3 then 1 else 0) +
        (if c4 then 1 else 0)) :
    c1 ∧ c2 ∧ c3 ∧ c4 := by
  by_cases h1 : c1 <;> by_cases h2 : c2 <;> by_cases h3 : c3 <;> by_cases h4 : c4 <;>
    simp_all

/-- C4: for every single landmark input, is_open_palm and is_closed_fist
are never both true, and there are inputs on which both are false, so
the frame classification is mutually exclusive but not total. -/
theorem palm_fist_exclusive :
    (∀ h : HandLandmarks, (is_open_palm h && is_closed_fist h) = false) ∧
      (∃ h : HandLandmarks, is_open_palm h = false ∧ is_closed_fist h = false) := by
  constructor
  · intro h
    cases hpo : is_open_palm h with
    | false => simp
    | true =>
      cases hfo : is_closed_fist h with
      | false => simp
      | true =>
        exfalso
        simp only [is_open_palm, decide_eq_true_eq] at hpo
        simp only [is_closed_fist, decide_eq_true_eq] at hfo
        obtain ⟨a1, -, -, -⟩ := four_le_sum_ite hpo
        obtain ⟨b1, -, -, -⟩ := four_le_sum_ite hfo
        exact lt_asymm a1 b1
  · exact ⟨flatHand, by decide, by decide⟩

/-- C9: the reset classifier is_victory_hand is mutually exclusive with
both is_open_palm and is_closed_fist on every single landmark input. -/
theorem victory_exclusive :
    ∀ h : HandLandmarks, (is_victory_hand h && is_open_palm h) = false ∧
      (is_victory_hand h && is_closed_fist h) = false := by
  intro h
  cases hv : is_victory_hand h with
  | false => simp
  | true =>
    simp only [is_victory_hand, Bool.and_eq_true, decide_eq_true_eq] at hv
    obtain ⟨⟨⟨hidx, hmid⟩, hring⟩, hpinky⟩ := hv
    constructor
    · cases hpo : is_open_palm h with
      | false => simp
      | true =>
        exfalso
        simp only [is_open_palm, decide_eq_true_eq] at hpo
        obtain ⟨-, -, hr, -⟩ := four_le_sum_ite hpo
        exact lt_asymm hr hring
    · cases hfo : is_closed_fist h with
      | false => simp
      | true =>
        exfalso
        simp only [is_closed_fist, decide_eq_true_eq] at hfo
        obtain ⟨hi, -, -, -⟩ := four_le_sum_ite hfo
        exact lt_asymm hi hidx

/-- C1: in gesture_control.py, run_agent appends the new user Turn to a
history ending in an assistant Turn without removing that Turn, so the
dangling assistant Turn survives, while the overlay.py append (the code
whose own comment documents the prune as required to prevent an API
error) removes it. -/
theorem gesture_append_keeps_dangling_assistant :
    gestureAppendUser [danglingAssistant] [ContentBlock.text "next command"] =
        [danglingAssistant, userTurn [ContentBlock.text "next command"]] ∧
      overlayAppendUser [danglingAssistant] [ContentBlock.text "next command"] =
        [userTurn [ContentBlock.text "next command"]] := by
  exact ⟨rfl, rfl⟩

/-- C10: a transcript that is empty, or becomes empty after stripping the
leading listening prefix and leading punctuation, makes process_command
a no-op: the state (history included) is unchanged and no event — no
speech, no fast-path run, no cancellation, no submission — occurs. -/
theorem empty_cleanup_noop (osOpen osQuit : String → OSOutcome) (text : String) (s : GCState)
    (h : cleanupText text = "") :
    process_command osOpen osQuit text s = (s, []) := by
  unfold process_command
  by_cases ht : text = ""
  · simp [ht]
  · simp [ht, h]

/-- Witness for C10: the exact transcript Listening is a no-op. -/
theorem empty_cleanup_noop_witness :
    cleanupText "Listening" = "" ∧
      process_command osAllSuccess osAllSuccess "Listening" exampleGC = (exampleGC, []) :=
  ⟨by decide, empty_cleanup_noop osAllSuccess osAllSuccess "Listening" exampleGC (by decide)⟩

/-- C8: every speak call first performs the full stop sequence (the stop
events of the current state are exactly the leading events), the
previously tracked process is terminated, any spawned process is the new
one and is spawned last, and afterwards at most the new process is
tracked: last-write-wins with no queueing. -/
theorem speak_preempts :
    ∀ (s : VoiceState) (t : String) (pid : Nat) (ok : Bool),
      (speak t pid ok s).2.take (stop_speaking s).2.length = (stop_speaking s).2 ∧
        (∀ p, s.current_process = some p → VoiceEvent.terminated p ∈ (speak t pid ok s).2) ∧
        (∀ p, VoiceEvent.spawned p ∈ (speak t pid ok s).2 →
            p = pid ∧ (speak t pid ok s).2.getLast? = some (VoiceEvent.spawned p)) ∧
        ((speak t pid ok s).1.current_process = none ∨
          (speak t pid ok s).1.current_process = some pid) := by
  intro s t pid ok
  unfold speak stop_speaking
  cases s.current_process <;> by_cases ht : t = "" <;> cases ok <;> simp_all

/-- Witness for C8 at a concrete state with a process speaking. -/
theorem speak_preempts_witness :
    (speak "hello" 7 true ⟨some 3⟩).2.take (stop_speaking ⟨some 3⟩).2.length =
        (stop_speaking ⟨some 3⟩).2 ∧
      (∀ p, (⟨some 3⟩ : VoiceState).current_process = some p →
          VoiceEvent.terminated p ∈ (speak "hello" 7 true ⟨some 3⟩).2) ∧
      (∀ p, VoiceEvent.spawned p ∈ (speak "hello" 7 true ⟨some 3⟩).2 →
          p = 7 ∧ (speak "hello" 7 true ⟨some 3⟩).2.getLast? = some (VoiceEvent.spawned p)) ∧
      ((speak "hello" 7 true ⟨some 3⟩).1.current_process = none ∨
        (speak "hello" 7 true ⟨some 3⟩).1.current_process = some 7) :=
  speak_preempts ⟨some 3⟩ "hello" 7 true

/-- A frame whose time lies inside the cooldown window changes nothing. -/
theorem gestureStep_reject (st : TriggerState) (f : FrameInput)
    (h : ¬ st.cooldown < f.time - st.last_activation_time) :
    gestureStep st f = (st, none) := by
  cases hh : f.hand with
  | none => simp [gestureStep, hh]
  | some hd =>
    simp only [gestureStep, hh]
    split_ifs <;> simp_all

/-- An accepted transition stamps last_activation_time with the frame
time and leaves the cooldown length unchanged. -/
theorem gestureStep_accept (st : TriggerState) (f : FrameInput) (a : GestureAction)
    (h : (gestureStep st f).2 = some a) :
    (gestureStep st f).1.last_activation_time = f.time ∧
      (gestureStep st f).1.cooldown = st.cooldown := by
  cases hh : f.hand with
  | none => simp [gestureStep, hh] at h
  | some hd =>
    simp only [gestureStep, hh] at h ⊢
    split_ifs at h ⊢ <;> simp_all

/-- C7: after an accepted transition, any second detection whose time
lies within one cooldown interval of it is ignored — the step changes
nothing — so two qualifying detections inside the window yield exactly
one transition; and a step that accepts nothing never updates
last_activation_time (it leaves the state untouched). -/
theorem cooldown_debounce :
    (∀ (st : TriggerState) (f1 f2 : FrameInput) (a : GestureAction),
        (gestureStep st f1).2 = some a →
        f2.time - f1.time ≤ st.cooldown →
        gestureStep (gestureStep st f1).1 f2 = ((gestureStep st f1).1, none)) ∧
      (∀ (st : TriggerState) (f : FrameInput),
        (gestureStep st f).2 = none → (gestureStep st f).1 = st) := by
  constructor
  · intro st f1 f2 a hacc hwin
    obtain ⟨hlast, hcool⟩ := gestureStep_accept st f1 a hacc
    apply gestureStep_reject
    rw [hcool, hlast]
    intro hlt
    linarith
  · intro st f hnone
    cases hh : f.hand with
    | none => simp [gestureStep, hh]
    | some hd =>
      simp only [gestureStep, hh] at hnone ⊢
      split_ifs at hnone ⊢ <;> simp_all

/-- Witness for C7: an open palm accepted at time 3 with cooldown 2, then
a closed fist at time 4: the second detection is ignored. -/
theorem cooldown_debounce_witness :
    gestureStep (gestureStep debounceState frame1).1 frame2 =
        ((gestureStep debounceState frame1).1, none) :=
  cooldown_debounce.1 debounceState frame1 frame2 GestureAction.startedListening
    (by norm_num [gestureStep, debounceState, frame1, palmHand, is_open_palm])
    (by norm_num [frame1, frame2, debounceState])

/-- C5: whenever an intent pattern captures a remainder whose cleaned
form trips the heuristic guard (more than 3 tokens, or an and / then
conjunction marker), the dispatcher returns none for every OS oracle;
and the four example transcripts behave as specified. -/
theorem fast_path_guard :
    (∀ (osOpen osQuit : String → OSOutcome) (t : String) (r : List Char),
        matchVerbs openVerbs (pyStrip (pyLower t.data)) = some r →
        guardReject (cleanAppName r) = true →
        handle_local_action osOpen osQuit t = none) ∧
      (∀ (osOpen osQuit : String → OSOutcome) (t : String) (r : List Char),
        matchVerbs openVerbs (pyStrip (pyLower t.data)) = none →
        matchVerbs closeVerbs (pyStrip (pyLower t.data)) = some r →
        guardReject (cleanAppName r) = true →
        handle_local_action osOpen osQuit t = none) ∧
      (∀ osOpen osQuit : String → OSOutcome,
        handle_local_action osOpen osQuit "open settings and close mail" = none) ∧
      handle_local_action osAllSuccess osAllSuccess "open safari" = some (openNote "safari") ∧
      handle_local_action osAllSuccess osAllSuccess "open the calculator" =
        some (openNote "calculator") ∧
      handle_local_action osAllSuccess osAllSuccess "close finder" = some (closeNote "finder") := by
  refine ⟨?_, ?_, ?_, rfl, rfl, rfl⟩
  · intro osOpen osQuit t r hm hg
    simp only [handle_local_action, hm, hg, if_true]
  · intro osOpen osQuit t r hmo hmc hg
    simp only [handle_local_action, hmo, hmc, hg, if_true]
  · intro osOpen osQuit
    rfl

/-- Witness for C5: a four-token remainder trips the guard. -/
theorem fast_path_guard_witness :
    handle_local_action osAllSuccess osAllSuccess "open a b c d" = none :=
  fast_path_guard.1 osAllSuccess osAllSuccess "open a b c d" "a b c d".data
    (by decide) (by decide)

/-- C6: the fast-path dispatcher is total and silent about failures: for
every OS oracle and input it returns either a success note (and then the
corresponding OS call succeeded) or none, and under oracles where every
OS call raises, or exits non-zero, it always returns none. -/
theorem fast_path_absorbs_failures :
    (∀ (osOpen osQuit : String → OSOutcome) (t : String),
        handle_local_action osOpen osQuit t = none ∨
          (∃ app : String, handle_local_action osOpen osQuit t = some (openNote app) ∧
            osOpen app = OSOutcome.success) ∨
          (∃ app : String, handle_local_action osOpen osQuit t = some (closeNote app) ∧
            osQuit app = OSOutcome.success)) ∧
      (∀ t : String, handle_local_action osAllRaised osAllRaised t = none) ∧
      (∀ t : String, handle_local_action osAllFailure osAllFailure t = none) := by
  refine ⟨?_, ?_, ?_⟩
  · intro osOpen osQuit t
    simp only [handle_local_action]
    cases hmo : matchVerbs openVerbs (pyStrip (pyLower t.data)) with
    | some rest =>
      by_cases hg : guardReject (cleanAppName rest) = true
      · simp [hg]
      · simp only [Bool.not_eq_true] at hg
        simp only [hg, Bool.false_eq_true, if_false]
        cases hos : osOpen (String.mk (cleanAppName rest)) with
        | success => exact Or.inr (Or.inl ⟨String.mk (cleanAppName rest), rfl, hos⟩)
        | failure => exact Or.inl rfl
        | raised => exact Or.inl rfl
    | none =>
      cases hmc : matchVerbs closeVerbs (pyStrip (pyLower t.data)) with
      | some rest =>
        by_cases hg : guardReject (cleanAppName rest) = true
        · simp [hg]
        · simp only [Bool.not_eq_true] at hg
          simp only [hg, Bool.false_eq_true, if_false]
          cases hos : osQuit (String.mk (cleanAppName rest)) with
          | success => exact Or.inr (Or.inr ⟨String.mk (cleanAppName rest), rfl, hos⟩)
          | failure => exact Or.inl rfl
          | raised => exact Or.inl rfl
      | none => exact Or.inl rfl
  · intro t
    simp only [handle_local_action]
    cases hmo : matchVerbs openVerbs (pyStrip (pyLower t.data)) with
    | some rest =>
      by_cases hg : guardReject (cleanAppName rest) = true <;> simp [hg, osAllRaised]
    | none =>
      cases hmc : matchVerbs closeVerbs (pyStrip (pyLower t.data)) with
      | some rest =>
        by_cases hg : guardReject (cleanAppName rest) = true <;> simp [hg, osAllRaised]
      | none => rfl
  · intro t
    simp only [handle_local_action]
    cases hmo : matchVerbs openVerbs (pyStrip (pyLower t.data)) with
    | some rest =>
      by_cases hg : guardReject (cleanAppName rest) = true <;> simp [hg, osAllFailure]
    | none =>
      cases hmc : matchVerbs closeVerbs (pyStrip (pyLower t.data)) with
      | some rest =>
        by_cases hg : guardReject (cleanAppName rest) = true <;> simp [hg, osAllFailure]
      | none => rfl

/-- Two members of a list pairwise-distinct in id with equal ids are the
same element. -/
theorem pairwise_ne_id_eq {l : List TaskRec} (hp : l.Pairwise (fun a b => a.id ≠ b.id))
    {t1 t2 : TaskRec} (h1 : t1 ∈ l) (h2 : t2 ∈ l) (hid : t1.id = t2.id) : t1 = t2 := by
  induction l with
  | nil => cases h1
  | cons x xs ih =>
    rcases List.pairwise_cons.mp hp with ⟨hx, hxs⟩
    rcases List.mem_cons.mp h1 with rfl | h1m
    · rcases List.mem_cons.mp h2 with rfl | h2m
      · rfl
      · exact absurd hid (hx _ h2m)
    · rcases List.mem_cons.mp h2 with rfl | h2m
      · exact absurd hid.symm (hx _ h1m)
      · exact ih hxs h1m h2m

/-- Membership in markCancel comes from membership in the source list. -/
theorem markCancel_mem {l : List TaskRec} {cid : Nat} {t : TaskRec}
    (h : t ∈ markCancel l cid) :
    ∃ u ∈ l, t = if u.id = cid then { u with cancelRequested := true } else u := by
  rcases List.mem_map.mp h with ⟨u, hu, he⟩
  exact ⟨u, hu, he.symm⟩

/-- Marking cancellation never changes a task id. -/
theorem markCancel_id (u : TaskRec) (cid : Nat) :
    (if u.id = cid then { u with cancelRequested := true } else u).id = u.id := by
  split_ifs <;> rfl

/-- Marking cancellation preserves pairwise distinctness of ids. -/
theorem markCancel_pairwise {l : List TaskRec} {cid : Nat}
    (hp : l.Pairwise (fun a b => a.id ≠ b.id)) :
    (markCancel l cid).Pairwise (fun a b => a.id ≠ b.id) := by
  unfold markCancel
  rw [List.pairwise_map]
  refine hp.imp ?_
  intro a b hab
  rwa [markCancel_id, markCancel_id]

/-- cancelCurrentIfRunning only touches the task list. -/
theorem cancelCurrent_fields (s : GCState) :
    (cancelCurrentIfRunning s).1.messagesRef = s.messagesRef ∧
      (cancelCurrentIfRunning s).1.heap = s.heap ∧
      (cancelCurrentIfRunning s).1.nextRef = s.nextRef ∧
      (cancelCurrentIfRunning s).1.nextId = s.nextId ∧
      (cancelCurrentIfRunning s).1.current_task = s.current_task := by
  unfold cancelCurrentIfRunning
  cases hcur : s.current_task with
  | none => exact ⟨rfl, rfl, rfl, rfl, hcur⟩
  | some cid =>
    dsimp only
    cases s.tasks.find? (fun t => t.id == cid) with
    | none => exact ⟨rfl, rfl, rfl, rfl, hcur⟩
    | some u =>
      dsimp only
      split_ifs <;> refine ⟨rfl, rfl, rfl, rfl, ?_⟩ <;> first | rfl | exact hcur

/-- The task list after cancelCurrentIfRunning is the old one or a
cancellation-marked copy of it. -/
theorem cancelCurrent_tasks_cases (s : GCState) :
    (cancelCurrentIfRunning s).1.tasks = s.tasks ∨
      ∃ cid, (cancelCurrentIfRunning s).1.tasks = markCancel s.tasks cid := by
  unfold cancelCurrentIfRunning
  cases s.current_task with
  | none => exact Or.inl rfl
  | some cid =>
    dsimp only
    cases s.tasks.find? (fun t => t.id == cid) with
    | none => exact Or.inl rfl
    | some u =>
      dsimp only
      split_ifs
      · exact Or.inl rfl
      · exact Or.inr ⟨cid, rfl⟩

/-- Task ids keep their allocator bound across cancelCurrentIfRunning. -/
theorem cancelCurrent_id_bound (s : GCState) (h : ∀ t ∈ s.tasks, t.id < s.nextId) :
    ∀ t ∈ (cancelCurrentIfRunning s).1.tasks, t.id < s.nextId := by
  rcases cancelCurrent_tasks_cases s with he | ⟨cid, he⟩
  · rw [he]; exact h
  · rw [he]
    intro t ht
    rcases markCancel_mem ht with ⟨u, hu, rfl⟩
    rw [markCancel_id]
    exact h u hu

/-- Pairwise distinctness of ids survives cancelCurrentIfRunning. -/
theorem cancelCurrent_pairwise (s : GCState)
    (h : s.tasks.Pairwise (fun a b => a.id ≠ b.id)) :
    (cancelCurrentIfRunning s).1.tasks.Pairwise (fun a b => a.id ≠ b.id) := by
  rcases cancelCurrent_tasks_cases s with he | ⟨cid, he⟩
  · rw [he]; exact h
  · rw [he]; exact markCancel_pairwise h

/-- Under the scheduler invariant, no task is still active (neither done
nor cancel-requested) once cancelCurrentIfRunning has run. -/
theorem cancelCurrent_no_active (s : GCState) (hinv : SchedInv s) :
    ∀ t ∈ (cancelCurrentIfRunning s).1.tasks,
      t.done = false → t.cancelRequested = false → False := by
  obtain ⟨h1, -, h3⟩ := hinv
  unfold cancelCurrentIfRunning
  cases hcur : s.current_task with
  | none =>
    intro t ht hd hc
    have := h1 t ht hd hc
    rw [hcur] at this
    exact Option.noConfusion this
  | some cid =>
    dsimp only
    cases hfind : s.tasks.find? (fun t => t.id == cid) with
    | none =>
      intro t ht hd hc
      have hcurt := h1 t ht hd hc
      rw [hcur] at hcurt
      have hid : cid = t.id := Option.some.inj hcurt
      have hnone := List.find?_eq_none.mp hfind t ht
      simp [hid] at hnone
    | some u =>
      dsimp only
      split_ifs with hdone
      · intro t ht hd hc
        have hcurt := h1 t ht hd hc
        rw [hcur] at hcurt
        have hid : cid = t.id := Option.some.inj hcurt
        have humem : u ∈ s.tasks := List.mem_of_find?_eq_some hfind
        have hup := List.find?_some hfind
        have huid : u.id = cid := by simpa using hup
        have : t = u := pairwise_ne_id_eq h3 ht humem (by rw [huid, hid])
        rw [this] at hd
        rw [hdone] at hd
        exact Bool.noConfusion hd
      · intro t ht hd hc
        rcases markCancel_mem ht with ⟨v, hv, he⟩
        by_cases hvid : v.id = cid
        · rw [if_pos hvid] at he
          rw [he] at hc
          exact Bool.noConfusion hc
        · rw [if_neg hvid] at he
          subst he
          have hcurt := h1 t hv hd hc
          rw [hcur] at hcurt
          exact hvid (Option.some.inj hcurt).symm

/-- The scheduler invariant forces at most one active task. -/
theorem schedInv_at_most_one {s : GCState} (hinv : SchedInv s) :
    ∀ t1 ∈ s.tasks, ∀ t2 ∈ s.tasks,
      t1.done = false → t1.cancelRequested = false →
      t2.done = false → t2.cancelRequested = false → t1 = t2 := by
  obtain ⟨h1, -, h3⟩ := hinv
  intro t1 m1 t2 m2 d1 c1 d2 c2
  have e1 := h1 t1 m1 d1 c1
  have e2 := h1 t2 m2 d2 c2
  rw [e1] at e2
  exact pairwise_ne_id_eq h3 m1 m2 (Option.some.inj e2)

/-- cancelCurrentIfRunning emits no submission event. -/
theorem cancelCurrent_no_submit (s : GCState) (tid : Nat) (cmd : String) :
    GCEvent.submitted tid cmd ∉ (cancelCurrentIfRunning s).2 := by
  unfold cancelCurrentIfRunning
  cases s.current_task with
  | none => simp
  | some cid =>
    dsimp only
    cases s.tasks.find? (fun t => t.id == cid) with
    | none => simp
    | some u =>
      dsimp only
      split_ifs <;> simp

/-- When the current task exists and is not done, cancelCurrentIfRunning
issues exactly its cancellation. -/
theorem cancelCurrent_issues (s : GCState) (cid : Nat) (u : TaskRec)
    (hcur : s.current_task = some cid)
    (hfind : s.tasks.find? (fun t => t.id == cid) = some u)
    (hdone : u.done = false) :
    (cancelCurrentIfRunning s).2 = [GCEvent.cancelIssued cid] := by
  unfold cancelCurrentIfRunning
  rw [hcur]
  dsimp only
  rw [hfind]
  dsimp only
  rw [hdone]
  simp

/-- The state produced by the submission branch of process_command
satisfies the scheduler invariant. -/
theorem submit_state_inv (s : GCState) (hinv : SchedInv s) :
    SchedInv { (cancelCurrentIfRunning s).1 with
        tasks := (cancelCurrentIfRunning s).1.tasks ++
          [⟨(cancelCurrentIfRunning s).1.nextId, (cancelCurrentIfRunning s).1.messagesRef,
            false, false⟩]
        current_task := some (cancelCurrentIfRunning s).1.nextId
        nextId := (cancelCurrentIfRunning s).1.nextId + 1 } := by
  have hnid : (cancelCurrentIfRunning s).1.nextId = s.nextId :=
    (cancelCurrent_fields s).2.2.2.1
  refine ⟨?_, ?_, ?_⟩
  · intro t ht hd hc
    rcases List.mem_append.mp ht with hin | hnew
    · exact (cancelCurrent_no_active s hinv t hin hd hc).elim
    · rcases List.mem_singleton.mp hnew with rfl
      rfl
  · intro t ht
    rcases List.mem_append.mp ht with hin | hnew
    · have := cancelCurrent_id_bound s hinv.2.1 t hin
      show t.id < (cancelCurrentIfRunning s).1.nextId + 1
      omega
    · rcases List.mem_singleton.mp hnew with rfl
      exact Nat.lt_succ_self _
  · rw [List.pairwise_append]
    refine ⟨cancelCurrent_pairwise s hinv.2.2, List.pairwise_singleton _ _, ?_⟩
    intro a ha b hb
    rcases List.mem_singleton.mp hb with rfl
    have := cancelCurrent_id_bound s hinv.2.1 a ha
    show a.id ≠ (cancelCurrentIfRunning s).1.nextId
    omega

/-- C2: process_command preserves the single-flight invariant: at most
one submitted task is active (Running with no cancellation requested),
any submission event makes the new task the current handle, the
submission is the last event, and when the previous current task was
non-terminal its cancellation was issued strictly before the
submission. -/
theorem submit_single_flight (osOpen osQuit : String → OSOutcome) (text : String)
    (s : GCState) (hinv : SchedInv s) :
    SchedInv (process_command osOpen osQuit text s).1 ∧
      (∀ t1 ∈ (process_command osOpen osQuit text s).1.tasks,
        ∀ t2 ∈ (process_command osOpen osQuit text s).1.tasks,
          t1.done = false → t1.cancelRequested = false →
          t2.done = false → t2.cancelRequested = false → t1 = t2) ∧
      (∀ tid cmd, GCEvent.submitted tid cmd ∈ (process_command osOpen osQuit text s).2 →
          (process_command osOpen osQuit text s).1.current_task = some tid ∧
          (process_command osOpen osQuit text s).2.getLast? =
            some (GCEvent.submitted tid cmd) ∧
          (∀ (cid : Nat) (u : TaskRec), s.current_task = some cid →
              s.tasks.find? (fun t => t.id == cid) = some u → u.done = false →
              GCEvent.cancelIssued cid ∈
                (process_command osOpen osQuit text s).2.dropLast)) := by
  by_cases ht : text = ""
  · have he : process_command osOpen osQuit text s = (s, []) := by
      simp [process_command, ht]
    rw [he]
    exact ⟨hinv, schedInv_at_most_one hinv, fun tid cmd hmem => by simp at hmem⟩
  · by_cases htc : cleanupText text = ""
    · have he : process_command osOpen osQuit text s = (s, []) :=
        empty_cleanup_noop osOpen osQuit text s htc
      rw [he]
      exact ⟨hinv, schedInv_at_most_one hinv, fun tid cmd hmem => by simp at hmem⟩
    · cases hfp : handle_local_action osOpen osQuit (cleanupText text) with
      | some note =>
        have he : process_command osOpen osQuit text s =
            (s, [GCEvent.spoke "Processing", GCEvent.fastPathRun (cleanupText text),
              GCEvent.spoke "Done"]) := by
          simp [process_command, ht, htc, hfp]
        rw [he]
        exact ⟨hinv, schedInv_at_most_one hinv, fun tid cmd hmem => by simp at hmem⟩
      | none =>
        have he : process_command osOpen osQuit text s =
            ({ (cancelCurrentIfRunning s).1 with
                tasks := (cancelCurrentIfRunning s).1.tasks ++
                  [⟨(cancelCurrentIfRunning s).1.nextId,
                    (cancelCurrentIfRunning s).1.messagesRef, false, false⟩]
                current_task := some (cancelCurrentIfRunning s).1.nextId
                nextId := (cancelCurrentIfRunning s).1.nextId + 1 },
              ([GCEvent.spoke "Processing", GCEvent.fastPathRun (cleanupText text)] ++
                  (cancelCurrentIfRunning s).2) ++
                [GCEvent.submitted ((cancelCurrentIfRunning s).1.nextId)
                  (cleanupText text)]) := by
          simp [process_command, ht, htc, hfp]
        rw [he]
        refine ⟨submit_state_inv s hinv, schedInv_at_most_one (submit_state_inv s hinv), ?_⟩
        intro tid cmd hmem
        have hone : GCEvent.submitted tid cmd =
            GCEvent.submitted ((cancelCurrentIfRunning s).1.nextId) (cleanupText text) := by
          rcases List.mem_append.mp hmem with h12 | hlast
          · rcases List.mem_append.mp h12 with h1 | h2
            · simp at h1
            · exact absurd h2 (cancelCurrent_no_submit s tid cmd)
          · exact List.mem_singleton.mp hlast
        obtain ⟨htid, hcmd⟩ := GCEvent.submitted.inj hone
        refine ⟨?_, ?_, ?_⟩
        · rw [htid]
        · rw [List.getLast?_concat, hone]
        · intro cid u hcur hfind hdone
          rw [List.dropLast_concat]
          have hiss := cancelCurrent_issues s cid u hcur hfind hdone
          rw [List.mem_append, hiss]
          exact Or.inr (List.mem_singleton.mpr rfl)

/-- Witness for C2 at a concrete controller state with a running task. -/
theorem submit_single_flight_witness :
    SchedInv (process_command osAllFailure osAllFailure "what time is it" exampleGC).1 :=
  (submit_single_flight osAllFailure osAllFailure "what time is it" exampleGC
      ⟨by decide, by decide, by simp [exampleGC]⟩).1

/-- A task appending Turns to its own message-list object never touches a
different object. -/
theorem taskAppend_fold_preserves (t : TaskRec) (X : Nat) (hne : t.ref ≠ X) :
    ∀ (turns : List Turn) (st : GCState), st.heap X = [] →
      (turns.foldl (fun acc tn => taskAppendTurn t tn acc) st).heap X = [] := by
  intro turns
  induction turns with
  | nil => intro st h1; exact h1
  | cons tn tns ih =>
    intro st h1
    refine ih _ ?_
    show (taskAppendTurn t tn st).heap X = []
    simp only [taskAppendTurn]
    rw [if_neg (fun he => hne he.symm)]
    exact h1

/-- C3: resetting while a task is Running leaves the history object
empty, issues the cancellation of the running task, and any Turns that
task still appends go to the pre-reset list object it holds, never into
the new empty history. -/
theorem reset_discards_cancelled_task (s : GCState) (cid : Nat) (u : TaskRec)
    (hcur : s.current_task = some cid)
    (hfind : s.tasks.find? (fun t => t.id == cid) = some u)
    (hdone : u.done = false)
    (href : u.ref < s.nextRef)
    (turns : List Turn) :
    (reset_history s).1.heap ((reset_history s).1.messagesRef) = [] ∧
      GCEvent.cancelIssued cid ∈ (reset_history s).2 ∧
      (turns.foldl (fun acc tn => taskAppendTurn u tn acc) (reset_history s).1).heap
          ((reset_history s).1.messagesRef) = [] := by
  have hnr : (cancelCurrentIfRunning s).1.nextRef = s.nextRef :=
    (cancelCurrent_fields s).2.2.1
  have hX : (reset_history s).1.messagesRef = s.nextRef := by
    show (cancelCurrentIfRunning s).1.nextRef = s.nextRef
    exact hnr
  have hheap : (reset_history s).1.heap ((reset_history s).1.messagesRef) = [] := by
    show (if (cancelCurrentIfRunning s).1.nextRef = (cancelCurrentIfRunning s).1.nextRef
        then ([] : List Turn) else (cancelCurrentIfRunning s).1.heap _) = []
    rw [if_pos rfl]
  refine ⟨hheap, ?_, ?_⟩
  · have hiss := cancelCurrent_issues s cid u hcur hfind hdone
    show GCEvent.cancelIssued cid ∈ [GCEvent.spoke "History reset"] ++ (cancelCurrentIfRunning s).2
    rw [hiss]
    simp
  · refine taskAppend_fold_preserves u _ ?_ turns _ hheap
    rw [hX]
    exact Nat.ne_of_lt href

/-- Witness for C3: the cancelled running task of exampleGC appends a
late Turn after the reset; the new history stays empty. -/
theorem reset_discards_cancelled_task_witness :
    (reset_history exampleGC).1.heap ((reset_history exampleGC).1.messagesRef) = [] ∧
      GCEvent.cancelIssued 5 ∈ (reset_history exampleGC).2 ∧
      ([lateTurn].foldl (fun acc tn => taskAppendTurn exampleTask tn acc)
          (reset_history exampleGC).1).heap ((reset_history exampleGC).1.messagesRef) = [] :=
  reset_discards_cancelled_task exampleGC 5 exampleTask rfl (by decide) rfl (by decide) [lateTurn]

end VoiceOS
